import Mathlib

/-!
Verification of the `incrementer` ink! contract (src/lib.rs).

The contract state (`Incrementer`) holds a boolean flag, an eager `u32`
counter, a lazily materialized `u32` counter, a map from `AccountId` to
`u32`, and an immutable `Balance`.

Shallow embedding conventions:
* `u32` values are `Nat`; the `+` of Rust release builds on `u32` wraps,
  so counter addition is taken modulo `2 ^ 32` (`U32LIMIT`).
* `AccountId` and `Balance` are `Nat`.
* `ink_storage::Lazy<u32>` is a two-state cell (`unloaded seed` /
  `loaded value`): `get` materializes on first access, `set` overwrites
  and leaves the cell loaded.
* `ink_storage::collections::HashMap<AccountId, u32>` is a function
  `Nat → Option Nat`; `insert` overwrites the key.
* `&self` methods are pure functions on the state; `&mut self` methods
  return the updated state (and, for `get_number_lazy`, also the value).
* The caller identity (`self.env().caller()`) is passed explicitly as a
  parameter to the identity-scoped operations.
-/

/-- Modulus of 32-bit wrapping arithmetic. -/
def U32LIMIT : Nat := 2 ^ 32

/-- `ink_storage::Lazy<u32>`: either not yet materialized (holding the
constructor-supplied seed) or loaded with a live value. -/
inductive LazyU32 where
  | unloaded (seed : Nat)
  | loaded (value : Nat)
  deriving DecidableEq, Repr

/-- `Lazy::<u32>::get(&mut ...)`: materialize on first access, return the
value together with the (now loaded) cell. -/
def LazyU32.get : LazyU32 → Nat × LazyU32
  | .unloaded seed => (seed, .loaded seed)
  | .loaded v => (v, .loaded v)

/-- `Lazy::<u32>::set(...)`: overwrite with the new value; the cell is
loaded afterwards. -/
def LazyU32.set (_l : LazyU32) (v : Nat) : LazyU32 := .loaded v

/-- The numeric value the cell logically holds (seed if not yet loaded). -/
def LazyU32.logical : LazyU32 → Nat
  | .unloaded seed => seed
  | .loaded v => v

/-- Storage struct of the contract (src/lib.rs, `struct Incrementer`). -/
structure Incrementer where
  bool_value : Bool
  number : Nat
  lazy_number : LazyU32
  account_number_map : Nat → Option Nat
  balance : Nat

/-- Constructor `new`: takes every field value explicitly; the account
map always starts out as a fresh empty `HashMap`. -/
def Incrementer.new (init_value : Bool) (init_number : Nat)
    (init_lazy_number : Nat) (init_balance : Nat) : Incrementer :=
  { bool_value := init_value
    number := init_number
    lazy_number := .unloaded init_lazy_number
    account_number_map := fun _ => none
    balance := init_balance }

/-- Constructor `default`: delegates to `new` with `Default::default()`
for every parameter (`false` for `bool`, `0` for the numbers). -/
def Incrementer.default : Incrementer :=
  Incrementer.new false 0 0 0

/-- Message `flip`: negate the stored `bool`. -/
def Incrementer.flip (s : Incrementer) : Incrementer :=
  { s with bool_value := !s.bool_value }

/-- Message `get_bool`: return the stored `bool`. -/
def Incrementer.get_bool (s : Incrementer) : Bool :=
  s.bool_value

/-- Message `get_number`: return the eager counter. -/
def Incrementer.get_number (s : Incrementer) : Nat :=
  s.number

/-- Message `set_number`: overwrite the eager counter. -/
def Incrementer.set_number (s : Incrementer) (new_value : Nat) : Incrementer :=
  { s with number := new_value }

/-- Message `inc`: `self.number += by`, wrapping 32-bit addition. -/
def Incrementer.inc (s : Incrementer) (b : Nat) : Incrementer :=
  { s with number := (s.number + b) % U32LIMIT }

/-- Message `get_number_lazy`: `Lazy::get` on the lazy counter (a
`&mut self` message: it may materialize the cell). -/
def Incrementer.get_number_lazy (s : Incrementer) : Nat × Incrementer :=
  let p := s.lazy_number.get
  (p.1, { s with lazy_number := p.2 })

/-- Message `set_number_lazy`: `Lazy::set` on the lazy counter. -/
def Incrementer.set_number_lazy (s : Incrementer) (new_value : Nat) : Incrementer :=
  { s with lazy_number := s.lazy_number.set new_value }

/-- Message `inc_lazy`: `Lazy::get` the current value, then `Lazy::set`
`cur + by` (wrapping 32-bit addition). -/
def Incrementer.inc_lazy (s : Incrementer) (b : Nat) : Incrementer :=
  let p := s.lazy_number.get
  { s with lazy_number := p.2.set ((p.1 + b) % U32LIMIT) }

/-- Private helper `my_number_or_zero`: map lookup with default `0`. -/
def Incrementer.my_number_or_zero (s : Incrementer) (of : Nat) : Nat :=
  (s.account_number_map of).getD 0

/-- Message `get`: value stored for an arbitrary `AccountId` (0 if absent);
a `&self` message, hence pure. -/
def Incrementer.get (s : Incrementer) (of : Nat) : Nat :=
  s.my_number_or_zero of

/-- Message `get_my_number`: value stored for the caller (0 if absent). -/
def Incrementer.get_my_number (s : Incrementer) (caller : Nat) : Nat :=
  s.my_number_or_zero caller

/-- Message `set_my_number`: `HashMap::insert(caller, value)`. -/
def Incrementer.set_my_number (s : Incrementer) (caller : Nat) (value : Nat) :
    Incrementer :=
  { s with account_number_map :=
      fun a => if a = caller then some value else s.account_number_map a }

/-- `add_my_number`: insert `my_number_or_zero(caller) + value` for the
caller (wrapping 32-bit addition). -/
def Incrementer.add_my_number (s : Incrementer) (caller : Nat) (value : Nat) :
    Incrementer :=
  let my_number := s.my_number_or_zero caller
  { s with account_number_map :=
      fun a => if a = caller then some ((my_number + value) % U32LIMIT)
               else s.account_number_map a }

/-- Message `get_balance`: return the stored balance. -/
def Incrementer.get_balance (s : Incrementer) : Nat :=
  s.balance

/-- The operations of the counter interface, used to compare the eager
and the lazy counter over arbitrary call sequences. -/
inductive CtrOp where
  | get
  | set (v : Nat)
  | inc (b : Nat)
  deriving DecidableEq, Repr

/-- Run a sequence of counter operations through the eager counter
messages (`get_number` / `set_number` / `inc`), collecting the output of
every `get`. -/
def runEagerOutputs : Incrementer → List CtrOp → List Nat
  | _, [] => []
  | s, CtrOp.get :: ops => s.get_number :: runEagerOutputs s ops
  | s, CtrOp.set v :: ops => runEagerOutputs (s.set_number v) ops
  | s, CtrOp.inc b :: ops => runEagerOutputs (s.inc b) ops

/-- Run a sequence of counter operations through the lazy counter
messages (`get_number_lazy` / `set_number_lazy` / `inc_lazy`), collecting
the output of every `get`. -/
def runLazyOutputs : Incrementer → List CtrOp → List Nat
  | _, [] => []
  | s, CtrOp.get :: ops =>
      (s.get_number_lazy).1 :: runLazyOutputs (s.get_number_lazy).2 ops
  | s, CtrOp.set v :: ops => runLazyOutputs (s.set_number_lazy v) ops
  | s, CtrOp.inc b :: ops => runLazyOutputs (s.inc_lazy b) ops

/-- The full public message surface of the contract, with the caller
identity attached to identity-scoped messages. -/
inductive Op where
  | flip
  | get_bool
  | get_number
  | set_number (v : Nat)
  | inc (b : Nat)
  | get_number_lazy
  | set_number_lazy (v : Nat)
  | inc_lazy (b : Nat)
  | get (of : Nat)
  | get_my_number (caller : Nat)
  | set_my_number (caller : Nat) (v : Nat)
  | add_my_number (caller : Nat) (v : Nat)
  | get_balance
  deriving DecidableEq, Repr

/-- State transition of one public message (outputs of getters dropped;
`&self` messages leave the state unchanged). -/
def Incrementer.step (s : Incrementer) : Op → Incrementer
  | .flip => s.flip
  | .get_bool => s
  | .get_number => s
  | .set_number v => s.set_number v
  | .inc b => s.inc b
  | .get_number_lazy => (s.get_number_lazy).2
  | .set_number_lazy v => s.set_number_lazy v
  | .inc_lazy b => s.inc_lazy b
  | .get _ => s
  | .get_my_number _ => s
  | .set_my_number c v => s.set_my_number c v
  | .add_my_number c v => s.add_my_number c v
  | .get_balance => s

/-- Run a sequence of public messages from a state. -/
def Incrementer.run (s : Incrementer) : List Op → Incrementer
  | [] => s
  | op :: ops => (s.step op).run ops

/-- Whether a message is a map write (`set_my_number` or `add_my_number`)
performed by the identity `a`. -/
def Op.writesBy : Op → Nat → Bool
  | .set_my_number c _, a => c == a
  | .add_my_number c _, a => c == a
  | _, _ => false

theorem lazy_get_fst (l : LazyU32) : l.get.1 = l.logical := by
  cases l <;> rfl

theorem lazy_get_snd_logical (l : LazyU32) : l.get.2.logical = l.logical := by
  cases l <;> rfl

theorem lazy_logical_loaded (v : Nat) : (LazyU32.loaded v).logical = v := rfl

/-- Simulation between the lazy and the eager counter: if the logical
value of the lazy cell of `s` agrees with the eager counter of `t`, the
two runs produce the same `get` outputs. -/
theorem lazy_eager_sim (ops : List CtrOp) :
    ∀ s t : Incrementer, s.lazy_number.logical = t.number →
      runLazyOutputs s ops = runEagerOutputs t ops := by
  induction ops with
  | nil => intro s t _; rfl
  | cons op ops ih =>
    intro s t h
    cases op with
    | get =>
      simp only [runLazyOutputs, runEagerOutputs, Incrementer.get_number_lazy,
        Incrementer.get_number, List.cons.injEq]
      refine ⟨by rw [lazy_get_fst, h], ih _ _ ?_⟩
      simp only [lazy_get_snd_logical, h]
    | set v =>
      simp only [runLazyOutputs, runEagerOutputs]
      exact ih _ _ (by simp [Incrementer.set_number_lazy, Incrementer.set_number,
        LazyU32.set, LazyU32.logical])
    | inc b =>
      simp only [runLazyOutputs, runEagerOutputs]
      refine ih _ _ ?_
      simp only [Incrementer.inc_lazy, Incrementer.inc, LazyU32.set,
        lazy_logical_loaded, lazy_get_fst, h]

/-- Claim C1: for any sequence of get/set/inc operations applied in
parallel to the lazy counter (`get_number_lazy`/`set_number_lazy`/`inc_lazy`)
and to the eager counter (`get_number`/`set_number`/`inc`), both counters
return identical outputs at every get when both start from the same
initial value: the two are behaviorally indistinguishable. -/
theorem lazy_counter_equiv_eager_counter (ops : List CtrOp) (b : Bool)
    (n bal : Nat) :
    runLazyOutputs (Incrementer.new b n n bal) ops =
      runEagerOutputs (Incrementer.new b n n bal) ops :=
  lazy_eager_sim ops _ _ rfl

/-- Claim C2: after `set_number v` then `inc b`, `get_number` returns
`(v + b) % 2 ^ 32` (wrapping 32-bit addition), and the same wrapping
policy is applied uniformly by `inc` on the eager counter, `inc_lazy` on
the lazy counter, and `add_my_number` on the per-identity counter. -/
theorem inc_wraps_uniformly (s : Incrementer) (v b c : Nat) :
    ((s.set_number v).inc b).get_number = (v + b) % U32LIMIT ∧
    (s.inc b).get_number = (s.get_number + b) % U32LIMIT ∧
    ((s.inc_lazy b).lazy_number).logical =
      (s.lazy_number.logical + b) % U32LIMIT ∧
    (s.add_my_number c b).get c = (s.get c + b) % U32LIMIT := by
  refine ⟨rfl, rfl, ?_, ?_⟩
  · simp [Incrementer.inc_lazy, LazyU32.set, LazyU32.logical, lazy_get_fst]
  · simp [Incrementer.add_my_number, Incrementer.get,
      Incrementer.my_number_or_zero]

/-- Claim C5: one `flip` negates the flag as observed through `get_bool`,
and two `flip`s leave the flag equal to its original value. -/
theorem flip_negates_and_is_involutive (s : Incrementer) :
    (s.flip).get_bool = !s.get_bool ∧
    ((s.flip).flip).get_bool = s.get_bool := by
  refine ⟨rfl, ?_⟩
  simp [Incrementer.flip, Incrementer.get_bool]

/-- Claim C6: `get_number` immediately after `set_number v` returns `v`,
and `get_number` itself has no side effect (as a `&self` message its step
leaves the state unchanged). -/
theorem set_number_then_get_number (s : Incrementer) (v : Nat) :
    ((s.set_number v).get_number) = v ∧
    Incrementer.step s Op.get_number = s :=
  ⟨rfl, rfl⟩

/-- Claim C7: the `default` constructor produces exactly the state of
`new false 0 0 0` — every field gets its zero/false value by delegation —
the account map is empty, and `get_bool` on it returns `false`. -/
theorem default_delegates_to_new :
    Incrementer.default = Incrementer.new false 0 0 0 ∧
    (∀ A : Nat, Incrementer.default.account_number_map A = none) ∧
    Incrementer.default.get_bool = false :=
  ⟨rfl, fun _ => rfl, rfl⟩

/-- One step creates a map entry for `A` exactly when the message is a
map write by `A`; it never removes an entry. -/
theorem step_map_isSome (s : Incrementer) (op : Op) (A : Nat) :
    ((s.step op).account_number_map A).isSome = true ↔
      ((s.account_number_map A).isSome = true ∨ op.writesBy A = true) := by
  cases op with
  | set_my_number c v =>
    simp only [Incrementer.step, Incrementer.set_my_number, Op.writesBy,
      beq_iff_eq]
    by_cases hc : A = c
    · subst hc; simp
    · rw [if_neg hc]
      have hc2 : c ≠ A := fun hcA => hc hcA.symm
      simp [hc2]
  | add_my_number c v =>
    simp only [Incrementer.step, Incrementer.add_my_number, Op.writesBy,
      beq_iff_eq]
    by_cases hc : A = c
    · subst hc; simp
    · rw [if_neg hc]
      have hc2 : c ≠ A := fun hcA => hc hcA.symm
      simp [hc2]
  | _ =>
    simp [Incrementer.step, Op.writesBy, Incrementer.flip,
      Incrementer.set_number, Incrementer.inc, Incrementer.get_number_lazy,
      Incrementer.set_number_lazy, Incrementer.inc_lazy]

/-- After a run, a map entry for `A` exists exactly when it existed
before the run or some message of the run is a map write by `A`. -/
theorem run_map_isSome (ops : List Op) :
    ∀ (s : Incrementer) (A : Nat),
      ((Incrementer.run s ops).account_number_map A).isSome = true ↔
        ((s.account_number_map A).isSome = true ∨
          ∃ op ∈ ops, op.writesBy A = true) := by
  induction ops with
  | nil => intro s A; simp [Incrementer.run]
  | cons op ops ih =>
    intro s A
    simp only [Incrementer.run]
    rw [ih, step_map_isSome]
    simp only [List.mem_cons]
    constructor
    · rintro ((h | h) | ⟨o, ho, hw⟩)
      · exact Or.inl h
      · exact Or.inr ⟨op, Or.inl rfl, h⟩
      · exact Or.inr ⟨o, Or.inr ho, hw⟩
    · rintro (h | ⟨o, rfl | ho, hw⟩)
      · exact Or.inl (Or.inl h)
      · exact Or.inl (Or.inr hw)
      · exact Or.inr ⟨o, ho, hw⟩

/-- Claim C9: starting from a constructed state the account map is empty,
and in every reachable state an entry for identity `A` exists exactly
when some message of the run is a write (`set_my_number` or
`add_my_number`) by `A` — entries are created only by writes, are never
pre-populated, and are never removed. -/
theorem map_entry_iff_written (ops : List Op) (b : Bool) (n ln bal A : Nat) :
    (((Incrementer.new b n ln bal).run ops).account_number_map A).isSome =
        true ↔
      ∃ op ∈ ops, op.writesBy A = true := by
  rw [run_map_isSome]
  simp [Incrementer.new]

/-- Claim C3: for an identity `A` never written during a run from a
constructed state, `get A` returns 0, the `get` message has no side
effect on the state, and a subsequent `get A` still returns 0. -/
theorem get_never_written_is_zero (ops : List Op) (b : Bool)
    (n ln bal A : Nat) (h : ∀ op ∈ ops, op.writesBy A = false) :
    ((Incrementer.new b n ln bal).run ops).get A = 0 ∧
    ((Incrementer.new b n ln bal).run ops).step (Op.get A) =
      (Incrementer.new b n ln bal).run ops ∧
    (((Incrementer.new b n ln bal).run ops).step (Op.get A)).get A = 0 := by
  have hm : ((Incrementer.new b n ln bal).run ops).account_number_map A
      = none := by
    cases hmap : ((Incrementer.new b n ln bal).run ops).account_number_map A
      with
    | none => rfl
    | some w =>
      exfalso
      have hs : (((Incrementer.new b n ln bal).run ops).account_number_map
          A).isSome = true := by rw [hmap]; rfl
      obtain ⟨op, hop, hw⟩ := (map_entry_iff_written ops b n ln bal A).mp hs
      rw [h op hop] at hw
      exact Bool.false_ne_true hw
  refine ⟨?_, rfl, ?_⟩ <;>
    simp [Incrementer.get, Incrementer.my_number_or_zero, Incrementer.step, hm]

theorem get_never_written_is_zero_witness :
    (∀ op ∈ [Op.set_my_number 1 5, Op.inc 2], Op.writesBy op 2 = false) ∧
    ((Incrementer.new false 0 0 0).run [Op.set_my_number 1 5, Op.inc 2]).get 2
      = 0 :=
  ⟨by decide,
    (get_never_written_is_zero [Op.set_my_number 1 5, Op.inc 2] false 0 0 0 2
      (by decide)).1⟩

/-- Claim C4: `add_my_number caller v` produces exactly the state of
`set_my_number caller (get_my_number caller + v)` (wrapping addition),
and from an unwritten caller entry `add_my_number 3; add_my_number 4`
leaves the caller's counter equal to 7. -/
theorem add_my_number_is_set_of_sum (s : Incrementer) (caller v : Nat) :
    s.add_my_number caller v =
      s.set_my_number caller ((s.get_my_number caller + v) % U32LIMIT) ∧
    (s.account_number_map caller = none →
      ((s.add_my_number caller 3).add_my_number caller 4).get_my_number caller
        = 7) := by
  constructor
  · rfl
  · intro h
    simp [Incrementer.add_my_number, Incrementer.get_my_number,
      Incrementer.my_number_or_zero, h]
    norm_num [U32LIMIT]

theorem add_my_number_is_set_of_sum_witness :
    Incrementer.default.account_number_map 0 = none ∧
    ((Incrementer.default.add_my_number 0 3).add_my_number 0 4).get_my_number 0
      = 7 :=
  ⟨rfl, (add_my_number_is_set_of_sum Incrementer.default 0 5).2 rfl⟩

/-- Claim C8: the balance is set at construction and no public message
ever changes the value returned by `get_balance`. -/
theorem balance_immutable (s : Incrementer) (op : Op) (b : Bool)
    (n ln bal : Nat) :
    (s.step op).get_balance = s.get_balance ∧
    (Incrementer.new b n ln bal).get_balance = bal := by
  refine ⟨?_, rfl⟩
  cases op <;> rfl

/-- Claim C10: `set_my_number` and `add_my_number` modify only the map
entry of the calling identity: any other identity reads the same value
as before, and the flag, eager counter, lazy counter and balance are all
unchanged. -/
theorem my_number_writes_are_local (s : Incrementer) (caller v B : Nat)
    (hB : B ≠ caller) :
    (s.set_my_number caller v).get B = s.get B ∧
    (s.add_my_number caller v).get B = s.get B ∧
    (s.set_my_number caller v).bool_value = s.bool_value ∧
    (s.set_my_number caller v).number = s.number ∧
    (s.set_my_number caller v).lazy_number = s.lazy_number ∧
    (s.set_my_number caller v).balance = s.balance ∧
    (s.add_my_number caller v).bool_value = s.bool_value ∧
    (s.add_my_number caller v).number = s.number ∧
    (s.add_my_number caller v).lazy_number = s.lazy_number ∧
    (s.add_my_number caller v).balance = s.balance := by
  refine ⟨?_, ?_, rfl, rfl, rfl, rfl, rfl, rfl, rfl, rfl⟩
  · simp [Incrementer.set_my_number, Incrementer.get,
      Incrementer.my_number_or_zero, hB]
  · simp [Incrementer.add_my_number, Incrementer.get,
      Incrementer.my_number_or_zero, hB]

theorem my_number_writes_are_local_witness :
    (1 : Nat) ≠ 0 ∧
    (Incrementer.default.set_my_number 0 5).get 1 = Incrementer.default.get 1 :=
  ⟨by decide, (my_number_writes_are_local Incrementer.default 0 5 1
    (by decide)).1⟩
